import Mathlib

/-!
Verification development for the boxfunge Befunge-93 engine
(src/main.rs and src/jit.rs).

The machine word (Rust type `Int = std::ffi::c_long`, i.e. i64 on the
target platform) is modelled as an integer together with explicit
reduction modulo 2^64 where the source uses wrapping primitives.
Byte values (grid cells, I/O bytes) are modelled as natural numbers
below 256.  Fallible operations return `Except`-style results; a Rust
panic (out-of-bounds slice index, division by zero inside the
`wrapping_div`/`wrapping_rem` primitives) is modelled by the dedicated
result constructor `Res.panicked`, and loops that may not terminate are
either fuel-indexed (with `none` meaning that the fuel ran out) or
structurally recursive on the input they consume.
-/

/-- Number of rows of the playfield (GRID_HEIGHT in main.rs). -/
def GRID_HEIGHT : Nat := 25

/-- Number of columns of the playfield (GRID_WIDTH in main.rs). -/
def GRID_WIDTH : Nat := 80

/-- Smallest value of the machine word (i64::MIN). -/
def intMin : ℤ := -(2 ^ 63)

/-- Largest value of the machine word (i64::MAX). -/
def intMax : ℤ := 2 ^ 63 - 1

/-- Reduce an unbounded integer to the machine word, two's complement:
the unique value congruent mod 2^64 lying in [-2^63, 2^63). -/
def wrap64 (z : ℤ) : ℤ := (z + 2 ^ 63) % 2 ^ 64 - 2 ^ 63

/-- Rust `i64::wrapping_add`. -/
def wrappingAdd64 (a b : ℤ) : ℤ := wrap64 (a + b)

/-- Rust `i64::wrapping_sub`. -/
def wrappingSub64 (a b : ℤ) : ℤ := wrap64 (a - b)

/-- Rust `i64::wrapping_mul`. -/
def wrappingMul64 (a b : ℤ) : ℤ := wrap64 (a * b)

/-- Rust `i64::wrapping_div`: truncated division; panics when the
divisor is 0 (modelled as `none`); the single overflow case
i64::MIN / -1 wraps back to i64::MIN. -/
def wrappingDiv64 (a b : ℤ) : Option ℤ :=
  if b = 0 then none
  else if a = intMin ∧ b = -1 then some intMin
  else some (a.tdiv b)

/-- Rust `i64::wrapping_rem`: truncated remainder; panics when the
divisor is 0 (modelled as `none`); i64::MIN % -1 yields 0. -/
def wrappingRem64 (a b : ℤ) : Option ℤ :=
  if b = 0 then none
  else if a = intMin ∧ b = -1 then some 0
  else some (a.tmod b)

/-- Rust `as usize` cast of an i64 on a 64-bit platform: negative
values reinterpret as huge unsigned values. -/
def usizeOf (z : ℤ) : Nat := if 0 ≤ z then z.toNat else (2 ^ 64 + z).toNat

/-- Movement direction of the program counter (enum Direction, main.rs). -/
inductive Direction where
  | Up
  | Down
  | Left
  | Right
deriving DecidableEq, Repr

instance : Inhabited Direction := ⟨Direction.Right⟩

/-- Playfield position (type Position = glam::I64Vec2 in main.rs). -/
structure Position where
  x : ℤ
  y : ℤ
deriving DecidableEq, Repr

instance : Inhabited Position := ⟨⟨0, 0⟩⟩

/-- The `impl Add<Direction> for Position` of main.rs. -/
def Position.addDir (p : Position) (d : Direction) : Position :=
  match d with
  | .Up => ⟨p.x, p.y - 1⟩
  | .Down => ⟨p.x, p.y + 1⟩
  | .Left => ⟨p.x - 1, p.y⟩
  | .Right => ⟨p.x + 1, p.y⟩

/-- Program counter: position plus direction (struct PC, main.rs). -/
structure PC where
  position : Position
  direction : Direction
deriving DecidableEq, Repr

instance : Inhabited PC := ⟨⟨⟨0, 0⟩, .Right⟩⟩

/-- PC::step — move one cell in the current direction. -/
def PC.step (pc : PC) : PC :=
  { pc with position := pc.position.addDir pc.direction }

/-- PC::constrain — toroidal wrap.  The source guards each axis with
`!(0..GRID).contains(&(coord as usize))` (which is also true for
negative coordinates) and then applies `(coord + GRID) % GRID` with
Rust's `%`, i.e. truncated remainder. -/
def PC.constrain (pc : PC) : PC :=
  let x0 := pc.position.x
  let y0 := pc.position.y
  let x1 := if 0 ≤ x0 ∧ x0 < (GRID_WIDTH : ℤ) then x0
    else (x0 + GRID_WIDTH).tmod GRID_WIDTH
  let y1 := if 0 ≤ y0 ∧ y0 < (GRID_HEIGHT : ℤ) then y0
    else (y0 + GRID_HEIGHT).tmod GRID_HEIGHT
  { pc with position := ⟨x1, y1⟩ }

/-- One `step(); constrain();` pair as it appears throughout the
compiler and the interpreter. -/
def stepConstrain (pc : PC) : PC := pc.step.constrain

/-- A position is inside the 80 x 25 playfield. -/
def inGrid (p : Position) : Bool :=
  decide (0 ≤ p.x ∧ p.x < (GRID_WIDTH : ℤ) ∧ 0 ≤ p.y ∧ p.y < (GRID_HEIGHT : ℤ))

/-- The playfield: a matrix of byte values, row major (type Grid =
[[u8; GRID_WIDTH]; GRID_HEIGHT] in main.rs). -/
def Grid : Type := List (List Nat)

instance : DecidableEq Grid := inferInstanceAs (DecidableEq (List (List Nat)))

/-- Indexing `grid[y as usize][x as usize]`; `none` models the Rust
index-out-of-bounds panic. -/
def gridGet (g : Grid) (p : Position) : Option Nat :=
  match (g : List (List Nat)).get? (usizeOf p.y) with
  | none => none
  | some row => row.get? (usizeOf p.x)

/-- Write `grid[y as usize][x as usize] = v`.  Only ever used behind
the source's own in-grid guard. -/
def gridSet (g : Grid) (x y : ℤ) (v : Nat) : Grid :=
  (g : List (List Nat)).set (usizeOf y)
    (((g : List (List Nat)).getD (usizeOf y) []).set (usizeOf x) v)

/-- Reading a cell as a signed 8-bit value widened to the machine word
(`as i8 as Int` in the source). -/
def signedByte (b : Nat) : ℤ := if b < 128 then (b : ℤ) else (b : ℤ) - 256

/-- I/O error kinds observable in this model (io::ErrorKind).  Reading
from a byte list cannot fail other than by end-of-stream, which the
source handles in place, so only InvalidData can surface. -/
inductive IoKind where
  | invalidData
deriving DecidableEq, Repr

/-- The error taxonomy (enum Error, main.rs).  The source variant
`Io(io::Error)` is named `IoError` here. -/
inductive Error where
  | IoError (kind : IoKind)
  | InvalidGridSize (w h : Nat)
  | NonAscii (v : ℤ)
  | IllegalCommand (command : Nat)
  | ProgramEnd
deriving DecidableEq, Repr

/-- Outcome of running a piece of the engine: a value, a returned
`Error`, or a Rust panic (`panicked`). -/
inductive Res (α : Type) where
  | ok (a : α)
  | err (e : Error)
  | panicked
deriving DecidableEq, Repr

/-- The six two-operand byte-code operations (enum BinaryOperation,
jit.rs). -/
inductive BinaryOperation where
  | Add
  | Subtract
  | Divide
  | Multiply
  | Remainder
  | Greater
deriving DecidableEq, Repr

/-- BinaryOperation::call.  `none` models the panic of
`wrapping_div` / `wrapping_rem` on a zero divisor. -/
def BinaryOperation.call (op : BinaryOperation) (a b : ℤ) : Option ℤ :=
  match op with
  | .Add => some (wrappingAdd64 a b)
  | .Subtract => some (wrappingSub64 a b)
  | .Divide => wrappingDiv64 a b
  | .Multiply => some (wrappingMul64 a b)
  | .Remainder => wrappingRem64 a b
  | .Greater => some (if a > b then 1 else 0)

/-- I/O mode of an input/output operation (enum IOMode, jit.rs). -/
inductive IOMode where
  | Ascii
  | Decimal
deriving DecidableEq, Repr

/-- JIT byte code (enum Operation, jit.rs). -/
inductive Operation where
  | PushConstant (n : ℤ)
  | Duplicate
  | Swap
  | Drop
  | Binary (op : BinaryOperation)
  | Negate
  | Input (mode : IOMode)
  | Output (mode : IOMode)
  | GetValue
  | SetValue (pc_after : PC)
deriving DecidableEq, Repr

/-- Block terminators (enum ControlFlowDecision, jit.rs).  The source
stores the Random choices as an array [PC; 4]; here it is the
corresponding four-element list [up, down, left, right]. -/
inductive ControlFlowDecision where
  | Jump (target : PC)
  | Branch (true_target false_target : PC)
  | EndProgram
  | Random (choices : List PC)
deriving DecidableEq, Repr

/-- A compiled basic block (struct BasicBlock, jit.rs). -/
structure BasicBlock where
  entry_point : PC
  bytecode : List Operation
  cf_decision : ControlFlowDecision
deriving DecidableEq, Repr

/-- BASIC_BLOCK_SIZE_LIMIT of jit.rs. -/
def BASIC_BLOCK_SIZE_LIMIT : Nat := 2048

/-- Vec::resize(n, fill) of a byte row: pad with fill when shorter,
truncate when longer. -/
def resizeTo (n : Nat) (fill : Nat) (l : List Nat) : List Nat :=
  l.take n ++ List.replicate (n - l.length) fill

/-- The Ok-branch of Interpreter::parse_grid: resize every row to 80
columns with spaces (0x20), then resize the row list to 25 rows of
spaces. -/
def padGrid (lines : List (List Nat)) : Grid :=
  ((lines.map (resizeTo GRID_WIDTH 32)).take GRID_HEIGHT ++
    List.replicate (GRID_HEIGHT - lines.length) (List.replicate GRID_WIDTH 32) : List (List Nat))

/-- First non-ASCII character code of the source text, in reading
order (the first Err produced by the source's collect chains). -/
def firstNonAscii (lines : List (List Nat)) : Option Nat :=
  lines.findSome? (fun line => line.find? (fun c => decide (128 ≤ c)))

/-- Interpreter::parse_grid (main.rs).  The input is the source text
already split into lines of character codes (str::lines).  Note that
the width check uses only the length of the first line
(`lines.first().map_or(0, |v| v.len())`). -/
def parseGrid (lines : List (List Nat)) : Except Error Grid :=
  match firstNonAscii lines with
  | some c => .error (.NonAscii (c : ℤ))
  | none =>
    let height := lines.length
    let width := (lines.headD []).length
    if height > GRID_HEIGHT ∨ width > GRID_WIDTH then
      .error (.InvalidGridSize width height)
    else
      .ok (padGrid lines)

/-- Bytes that `(byte as char).is_whitespace()` accepts: the ASCII
whitespace characters plus U+0085 and U+00A0, which is what the cast
of a u8 through char yields. -/
def isWsByte (b : Nat) : Bool :=
  b = 0x09 ∨ b = 0x0A ∨ b = 0x0B ∨ b = 0x0C ∨ b = 0x0D ∨ b = 0x20 ∨ b = 0x85 ∨ b = 0xA0

/-- First loop of scan_next (main.rs): skip bytes while the buffer is
whitespace or 0, reading one byte per iteration; at end-of-stream the
buffer is set to 0, which re-enters the loop with unchanged input.
One unit of fuel is one loop iteration; `none` means the fuel ran out
before the loop exited. -/
def scanSkipWs : Nat → List Nat → Option (Nat × List Nat)
  | 0, _ => none
  | fuel + 1, input =>
    match input with
    | [] => scanSkipWs fuel []
    | b :: rest => if isWsByte b ∨ b = 0 then scanSkipWs fuel rest else some (b, rest)

/-- Second loop of scan_next: collect token bytes until a whitespace
byte, a zero byte, or end-of-stream terminates the token.  The
terminating byte is consumed.  This loop consumes input on every
iteration, so it needs no fuel. -/
def scanToken (b : Nat) : List Nat → (List Nat × List Nat)
  | [] => ([b], [])
  | c :: rest =>
    if isWsByte c ∨ c = 0 then ([b], rest)
    else
      let r := scanToken c rest
      (b :: r.1, r.2)

/-- An ASCII decimal digit. -/
def isDigit (c : Nat) : Bool := decide (48 ≤ c ∧ c ≤ 57)

/-- Numeric value of a digit string. -/
def digitsToNat (ds : List Nat) : Nat :=
  ds.foldl (fun acc c => acc * 10 + (c - 48)) 0

/-- Model of `String::from_utf8` followed by `i64::from_str` on the
scanned token: an optional sign followed by at least one ASCII digit,
with the value in i64 range; every other token (including invalid
UTF-8) fails, and both failure paths surface as
io::ErrorKind::InvalidData in the source, so they are merged here. -/
def parseI64 (tok : List Nat) : Option ℤ :=
  let signAndDigits : Bool × List Nat :=
    match tok with
    | 43 :: rest => (false, rest)
    | 45 :: rest => (true, rest)
    | _ => (false, tok)
  let neg := signAndDigits.1
  let ds := signAndDigits.2
  if ds = [] ∨ ¬ ds.all isDigit then none
  else
    let sv : ℤ := if neg then -(digitsToNat ds : ℤ) else (digitsToNat ds : ℤ)
    if intMin ≤ sv ∧ sv ≤ intMax then some sv else none

/-- scan_next::<Int> (main.rs): skip whitespace, read a token, parse
it as a machine-word integer.  Returns the parsed value and the
remaining input; a parse failure is io::ErrorKind::InvalidData; `none`
means the whitespace-skipping loop was still running when the fuel ran
out. -/
def scanNext (fuel : Nat) (input : List Nat) : Option (Except IoKind (ℤ × List Nat)) :=
  match scanSkipWs fuel input with
  | none => none
  | some (b, rest) =>
    let tr := scanToken b rest
    match parseI64 tr.1 with
    | some v => some (.ok (v, tr.2))
    | none => some (.error .invalidData)

/-- The reverse index (type GridBlockMap, jit.rs): for every grid
cell, the entry PCs of the cached blocks whose trace visited it. -/
def GridBlockMap : Type := List (List (List PC))

instance : DecidableEq GridBlockMap :=
  inferInstanceAs (DecidableEq (List (List (List PC))))

/-- The mutable state of the JIT engine (struct JustInTimeCompiler,
jit.rs).  The input and output adapters are byte streams; the RNG and
the statistics besides basic_block_compiles are external collaborators
left out of the model.  basic_blocks is the HashMap from entry PC to
block, modelled as an association list with unique keys. -/
structure JitState where
  program_grid : Grid
  grid_block_map : GridBlockMap
  basic_blocks : List (PC × BasicBlock)
  stack : List ℤ
  program_counter : PC
  input : List Nat
  output : List Nat
  basic_block_compiles : Nat
deriving DecidableEq

/-- Pop of the value stack: Vec::pop().unwrap_or_default(), with the
head of the list as top of stack. -/
def popD (s : List ℤ) : ℤ × List ℤ :=
  match s with
  | [] => (0, [])
  | a :: rest => (a, rest)

/-- Decimal text of a machine-word value followed by one space, as
bytes (`write!(output, "{} ", top)`). -/
def decimalBytes (z : ℤ) : List Nat :=
  (if z < 0 then [45] else []) ++ (Nat.toDigits 10 z.natAbs).map Char.toNat ++ [32]

/-- JustInTimeCompiler::invalidate_bytecode (jit.rs): read the reverse
index at the written cell (indexing panics when the cell is outside
the 25 x 80 index space, modelled as `none`), remove every listed
entry PC from the block cache, clear the cell's list, and return the
entry positions of the invalidated blocks. -/
def invalidateBytecode (s : JitState) (cell : Position) : Option (List Position × JitState) :=
  match (s.grid_block_map : List (List (List PC))).get? (usizeOf cell.y) with
  | none => none
  | some row =>
    match row.get? (usizeOf cell.x) with
    | none => none
    | some entries =>
      let bbs := s.basic_blocks.filter (fun e => decide (e.1 ∉ entries))
      let map2 : GridBlockMap :=
        (s.grid_block_map : List (List (List PC))).set (usizeOf cell.y)
          (row.set (usizeOf cell.x) [])
      some (entries.map PC.position,
        { s with basic_blocks := bbs, grid_block_map := map2 })

/-- Result of executing the ops of a block: either the whole byte code
ran (fallthrough) or a SetValue invalidated the running block and
execution stopped early with the synthetic jump target. -/
inductive StepOut where
  | fallthrough (s : JitState)
  | earlyJump (target : PC) (s : JitState)
deriving DecidableEq

/-- One iteration of the op loop of BasicBlock::execute (jit.rs).
`entry` is the entry point of the running block, `sf` the fuel given
to scan_next.  `some (.ok (.fallthrough s))` means the op completed
and the loop continues with state s. -/
def execOp (sf : Nat) (entry : PC) (op : Operation) (s : JitState) : Option (Res StepOut) :=
  match op with
  | .PushConstant n => some (.ok (.fallthrough { s with stack := n :: s.stack }))
  | .Duplicate =>
    let p := popD s.stack
    some (.ok (.fallthrough { s with stack := p.1 :: p.1 :: p.2 }))
  | .Swap =>
    let pf := popD s.stack
    let ps := popD pf.2
    some (.ok (.fallthrough { s with stack := ps.1 :: pf.1 :: ps.2 }))
  | .Drop =>
    let p := popD s.stack
    some (.ok (.fallthrough { s with stack := p.2 }))
  | .Binary bop =>
    let pb := popD s.stack
    let pa := popD pb.2
    match bop.call pa.1 pb.1 with
    | none => some .panicked
    | some v => some (.ok (.fallthrough { s with stack := v :: pa.2 }))
  | .Negate =>
    let p := popD s.stack
    some (.ok (.fallthrough { s with stack := (if p.1 = 0 then 1 else 0) :: p.2 }))
  | .Input .Ascii =>
    match s.input with
    | [] => some (.ok (.fallthrough { s with stack := (-1) :: s.stack }))
    | b :: rest =>
      some (.ok (.fallthrough
        { s with input := rest, stack := (if b ≠ 0xff then (b : ℤ) else -1) :: s.stack }))
  | .Input .Decimal =>
    match scanNext sf s.input with
    | none => none
    | some (.error k) => some (.err (.IoError k))
    | some (.ok (v, rem)) =>
      some (.ok (.fallthrough { s with input := rem, stack := v :: s.stack }))
  | .Output .Ascii =>
    let p := popD s.stack
    if 0 ≤ p.1 ∧ p.1 ≤ 127 then
      some (.ok (.fallthrough { s with stack := p.2, output := s.output ++ [p.1.toNat] }))
    else
      some (.err (.NonAscii p.1))
  | .Output .Decimal =>
    let p := popD s.stack
    some (.ok (.fallthrough { s with stack := p.2, output := s.output ++ decimalBytes p.1 }))
  | .GetValue =>
    let py := popD s.stack
    let px := popD py.2
    let v : ℤ :=
      if ¬ (0 ≤ px.1 ∧ px.1 < (GRID_WIDTH : ℤ)) ∨ ¬ (0 ≤ py.1 ∧ py.1 < (GRID_HEIGHT : ℤ)) then 0
      else signedByte (((s.program_grid : List (List Nat)).getD (usizeOf py.1) []).getD (usizeOf px.1) 0)
    some (.ok (.fallthrough { s with stack := v :: px.2 }))
  | .SetValue pc_after =>
    let py := popD s.stack
    let px := popD py.2
    let position : Position := ⟨px.1, py.1⟩
    let pv := popD px.2
    let g2 :=
      if (0 ≤ px.1 ∧ px.1 < (GRID_WIDTH : ℤ)) ∧ (0 ≤ py.1 ∧ py.1 < (GRID_HEIGHT : ℤ)) then
        gridSet s.program_grid px.1 py.1 ((pv.1 % 256).toNat)
      else s.program_grid
    let s1 := { s with stack := pv.2, program_grid := g2 }
    match invalidateBytecode s1 position with
    | none => some .panicked
    | some (invalidated, s2) =>
      if entry.position ∈ invalidated then some (.ok (.earlyJump pc_after s2))
      else some (.ok (.fallthrough s2))

/-- The op loop of BasicBlock::execute: run ops in order; an early
return (error, panic, self-invalidation jump) stops the loop. -/
def execOps (sf : Nat) (entry : PC) : List Operation → JitState → Option (Res StepOut)
  | [], s => some (.ok (.fallthrough s))
  | op :: rest, s =>
    match execOp sf entry op s with
    | some (.ok (.fallthrough s1)) => execOps sf entry rest s1
    | other => other

/-- BasicBlock::execute (jit.rs): run the byte code; if it falls
through, the block's declared terminator is returned, and a
self-invalidating SetValue surfaces the synthetic Jump(pc_after)
instead. -/
def BasicBlock.execute (sf : Nat) (b : BasicBlock) (s : JitState) :
    Option (Res (ControlFlowDecision × JitState)) :=
  match execOps sf b.entry_point b.bytecode s with
  | none => none
  | some (.err e) => some (.err e)
  | some .panicked => some .panicked
  | some (.ok (.fallthrough s2)) => some (.ok (b.cf_decision, s2))
  | some (.ok (.earlyJump target s2)) => some (.ok (.Jump target, s2))

/-- One choice of the '?' terminator: one step from the current cell
in the given direction, with the direction set accordingly. -/
def randomChoice (p : Position) (d : Direction) : PC :=
  ⟨p.addDir d, d⟩

/-- The body of the trace loop of
JustInTimeCompiler::compile_basic_block_from (jit.rs), one fuel unit
per iteration; `none` means the fuel ran out with the loop still
running.  Arguments mirror the loop state: current PC, the local
string-mode flag, the byte code emitted so far, and the visited-cell
list.  Command bytes are written as their ASCII codes, e.g. 62 is the
'greater-than' redirect, 34 the double quote, 64 the at sign. -/
def compileLoop (grid : Grid) (start : PC) :
    Nat → PC → Bool → List Operation → List Position → Option (Res (BasicBlock × List Position))
  | 0, _, _, _, _ => none
  | fuel + 1, pc, sm, code, pcs =>
    match gridGet grid pc.position with
    | none => some .panicked
    | some cmd =>
      let pcs2 := pcs ++ [pc.position]
      if sm then
        if cmd = 34 then
          compileLoop grid start fuel (stepConstrain pc) false code pcs2
        else
          compileLoop grid start fuel (stepConstrain pc) true
            (code ++ [.PushConstant (cmd : ℤ)]) pcs2
      else if code.length > BASIC_BLOCK_SIZE_LIMIT then
        some (.ok (⟨start, code, .Jump pc⟩, pcs2))
      else if cmd = 62 then
        compileLoop grid start fuel (stepConstrain { pc with direction := .Right }) false code pcs2
      else if cmd = 60 then
        compileLoop grid start fuel (stepConstrain { pc with direction := .Left }) false code pcs2
      else if cmd = 94 then
        compileLoop grid start fuel (stepConstrain { pc with direction := .Up }) false code pcs2
      else if cmd = 118 then
        compileLoop grid start fuel (stepConstrain { pc with direction := .Down }) false code pcs2
      else if cmd = 63 then
        some (.ok (⟨start, code,
          .Random [randomChoice pc.position .Up, randomChoice pc.position .Down,
            randomChoice pc.position .Left, randomChoice pc.position .Right]⟩, pcs2))
      else if cmd = 35 then
        compileLoop grid start fuel (pc.step.step.constrain) false code pcs2
      else if cmd = 32 then
        compileLoop grid start fuel (stepConstrain pc) false code pcs2
      else if cmd = 34 then
        compileLoop grid start fuel (stepConstrain pc) true code pcs2
      else if 48 ≤ cmd ∧ cmd ≤ 57 then
        compileLoop grid start fuel (stepConstrain pc) false
          (code ++ [.PushConstant ((cmd - 48 : Nat) : ℤ)]) pcs2
      else if cmd = 58 then
        compileLoop grid start fuel (stepConstrain pc) false (code ++ [.Duplicate]) pcs2
      else if cmd = 92 then
        compileLoop grid start fuel (stepConstrain pc) false (code ++ [.Swap]) pcs2
      else if cmd = 36 then
        compileLoop grid start fuel (stepConstrain pc) false (code ++ [.Drop]) pcs2
      else if cmd = 43 then
        compileLoop grid start fuel (stepConstrain pc) false (code ++ [.Binary .Add]) pcs2
      else if cmd = 45 then
        compileLoop grid start fuel (stepConstrain pc) false (code ++ [.Binary .Subtract]) pcs2
      else if cmd = 42 then
        compileLoop grid start fuel (stepConstrain pc) false (code ++ [.Binary .Multiply]) pcs2
      else if cmd = 47 then
        compileLoop grid start fuel (stepConstrain pc) false (code ++ [.Binary .Divide]) pcs2
      else if cmd = 37 then
        compileLoop grid start fuel (stepConstrain pc) false (code ++ [.Binary .Remainder]) pcs2
      else if cmd = 33 then
        compileLoop grid start fuel (stepConstrain pc) false (code ++ [.Negate]) pcs2
      else if cmd = 96 then
        compileLoop grid start fuel (stepConstrain pc) false (code ++ [.Binary .Greater]) pcs2
      else if cmd = 44 then
        compileLoop grid start fuel (stepConstrain pc) false (code ++ [.Output .Ascii]) pcs2
      else if cmd = 46 then
        compileLoop grid start fuel (stepConstrain pc) false (code ++ [.Output .Decimal]) pcs2
      else if cmd = 126 then
        compileLoop grid start fuel (stepConstrain pc) false (code ++ [.Input .Ascii]) pcs2
      else if cmd = 38 then
        compileLoop grid start fuel (stepConstrain pc) false (code ++ [.Input .Decimal]) pcs2
      else if cmd = 95 then
        some (.ok (⟨start, code,
          .Branch ⟨pc.position.addDir .Left, .Left⟩ ⟨pc.position.addDir .Right, .Right⟩⟩, pcs2))
      else if cmd = 124 then
        some (.ok (⟨start, code,
          .Branch ⟨pc.position.addDir .Up, .Up⟩ ⟨pc.position.addDir .Down, .Down⟩⟩, pcs2))
      else if cmd = 64 then
        some (.ok (⟨start, code, .EndProgram⟩, pcs2))
      else if cmd = 103 then
        compileLoop grid start fuel (stepConstrain pc) false (code ++ [.GetValue]) pcs2
      else if cmd = 112 then
        let pc2 := stepConstrain pc
        compileLoop grid start fuel pc2 false (code ++ [.SetValue pc2]) pcs2
      else
        some (.err (.IllegalCommand cmd))

/-- JustInTimeCompiler::compile_basic_block_from: trace the grid from
the start PC and return the block plus the visited cells. -/
def compileBasicBlockFrom (fuel : Nat) (start : PC) (grid : Grid) :
    Option (Res (BasicBlock × List Position)) :=
  compileLoop grid start fuel start false [] []

/-- HashMap lookup on the association-list model of basic_blocks. -/
def assocLookup (l : List (PC × BasicBlock)) (k : PC) : Option BasicBlock :=
  (l.find? (fun e => decide (e.1 = k))).map Prod.snd

/-- Append an entry PC to the reverse-index list of one cell
(`grid_block_map[cell.y][cell.x].push(entry)`).  Cells recorded by the
compiler went through constrain, so the indices are in range for
well-formed states. -/
def mapPush (m : GridBlockMap) (cell : Position) (entry : PC) : GridBlockMap :=
  ((m : List (List (List PC))).set (usizeOf cell.y)
    (((m : List (List (List PC))).getD (usizeOf cell.y) []).set (usizeOf cell.x)
      ((((m : List (List (List PC))).getD (usizeOf cell.y) []).getD (usizeOf cell.x) []) ++
        [entry])) : List (List (List PC)))

/-- JustInTimeCompiler::ensure_basic_block (jit.rs): return the cached
block for the current PC, or compile it, cache it, bump the compile
counter and record every visited cell in the reverse index. -/
def ensureBasicBlock (fuel : Nat) (s : JitState) : Option (Res (BasicBlock × JitState)) :=
  match assocLookup s.basic_blocks s.program_counter with
  | some b => some (.ok (b, s))
  | none =>
    match compileBasicBlockFrom fuel s.program_counter s.program_grid with
    | none => none
    | some (.err e) => some (.err e)
    | some .panicked => some .panicked
    | some (.ok (b, elements)) =>
      let s1 := { s with
        basic_blocks := s.basic_blocks ++ [(s.program_counter, b)],
        basic_block_compiles := s.basic_block_compiles + 1 }
      let s2 := elements.foldl
        (fun st cell => { st with grid_block_map := mapPush st.grid_block_map cell s.program_counter })
        s1
      some (.ok (b, s2))

/-- The first half of one iteration of
JustInTimeCompiler::run_forever (jit.rs): ensure a block exists for
the current PC, then execute it; the returned terminator is what the
run loop would resolve next. -/
def runBlockOnce (fuel sf : Nat) (s : JitState) :
    Option (Res (ControlFlowDecision × JitState)) :=
  match ensureBasicBlock fuel s with
  | none => none
  | some (.err e) => some (.err e)
  | some .panicked => some .panicked
  | some (.ok (b, s1)) => BasicBlock.execute sf b s1

/-- The reverse index at construction: one empty list per cell. -/
def emptyBlockMap : GridBlockMap :=
  (List.replicate GRID_HEIGHT (List.replicate GRID_WIDTH ([] : List PC)) : List (List (List PC)))

/-- JustInTimeCompiler::new_with_io on an already parsed grid and a
given input stream. -/
def initJitState (g : Grid) (input : List Nat) : JitState :=
  { program_grid := g
    grid_block_map := emptyBlockMap
    basic_blocks := []
    stack := []
    program_counter := default
    input := input
    output := []
    basic_block_compiles := 0 }

/-- The state of the plain interpreter (struct Interpreter, main.rs),
with the I/O adapters as byte streams. -/
structure InterpState where
  program_grid : Grid
  stack : List ℤ
  string_mode : Bool
  program_counter : PC
  input : List Nat
  output : List Nat
  steps : Nat
deriving DecidableEq

/-- Interpreter::run_step (main.rs).  `sf` is the fuel handed to
scan_next for the decimal-input command; `rngDir` is the direction the
RNG samples when a '?' command executes (the RNG itself is an external
collaborator).  `none` means scan_next was still looping when its fuel
ran out; `.panicked` models a Rust panic (zero divisor in
wrapping_div/wrapping_rem, index out of bounds). -/
def runStep (sf : Nat) (rngDir : Direction) (s0 : InterpState) : Option (Res InterpState) :=
  let s := { s0 with steps := s0.steps + 1 }
  match gridGet s.program_grid s.program_counter.position with
  | none => some .panicked
  | some cmd =>
    let moved : InterpState → InterpState :=
      fun st => { st with program_counter := stepConstrain st.program_counter }
    if s.string_mode then
      if cmd = 34 then some (.ok (moved { s with string_mode := false }))
      else some (.ok (moved { s with stack := (cmd : ℤ) :: s.stack }))
    else if cmd = 62 then
      some (.ok (moved { s with program_counter := { s.program_counter with direction := .Right } }))
    else if cmd = 60 then
      some (.ok (moved { s with program_counter := { s.program_counter with direction := .Left } }))
    else if cmd = 94 then
      some (.ok (moved { s with program_counter := { s.program_counter with direction := .Up } }))
    else if cmd = 118 then
      some (.ok (moved { s with program_counter := { s.program_counter with direction := .Down } }))
    else if cmd = 63 then
      some (.ok (moved { s with program_counter := { s.program_counter with direction := rngDir } }))
    else if cmd = 35 then
      some (.ok { s with program_counter := stepConstrain (stepConstrain s.program_counter) })
    else if cmd = 32 then
      some (.ok (moved s))
    else if cmd = 34 then
      some (.ok (moved { s with string_mode := true }))
    else if 48 ≤ cmd ∧ cmd ≤ 57 then
      some (.ok (moved { s with stack := ((cmd - 48 : Nat) : ℤ) :: s.stack }))
    else if cmd = 58 then
      let p := popD s.stack
      some (.ok (moved { s with stack := p.1 :: p.1 :: p.2 }))
    else if cmd = 92 then
      let pt := popD s.stack
      let ps := popD pt.2
      some (.ok (moved { s with stack := ps.1 :: pt.1 :: ps.2 }))
    else if cmd = 36 then
      let p := popD s.stack
      some (.ok (moved { s with stack := p.2 }))
    else if cmd = 43 then
      let pb := popD s.stack
      let pa := popD pb.2
      some (.ok (moved { s with stack := wrappingAdd64 pa.1 pb.1 :: pa.2 }))
    else if cmd = 45 then
      let pb := popD s.stack
      let pa := popD pb.2
      some (.ok (moved { s with stack := wrappingSub64 pa.1 pb.1 :: pa.2 }))
    else if cmd = 42 then
      let pb := popD s.stack
      let pa := popD pb.2
      some (.ok (moved { s with stack := wrappingMul64 pa.1 pb.1 :: pa.2 }))
    else if cmd = 47 then
      let pb := popD s.stack
      let pa := popD pb.2
      match wrappingDiv64 pa.1 pb.1 with
      | none => some .panicked
      | some v => some (.ok (moved { s with stack := v :: pa.2 }))
    else if cmd = 37 then
      let pb := popD s.stack
      let pa := popD pb.2
      match wrappingRem64 pa.1 pb.1 with
      | none => some .panicked
      | some v => some (.ok (moved { s with stack := v :: pa.2 }))
    else if cmd = 33 then
      let p := popD s.stack
      some (.ok (moved { s with stack := (if p.1 = 0 then 1 else 0) :: p.2 }))
    else if cmd = 96 then
      let pb := popD s.stack
      let pa := popD pb.2
      some (.ok (moved { s with stack := (if pa.1 > pb.1 then 1 else 0) :: pa.2 }))
    else if cmd = 44 then
      let p := popD s.stack
      if 0 ≤ p.1 ∧ p.1 ≤ 127 then
        some (.ok (moved { s with stack := p.2, output := s.output ++ [p.1.toNat] }))
      else
        some (.err (.NonAscii p.1))
    else if cmd = 46 then
      let p := popD s.stack
      some (.ok (moved { s with stack := p.2, output := s.output ++ decimalBytes p.1 }))
    else if cmd = 126 then
      match s.input with
      | [] => some (.ok (moved { s with stack := (-1) :: s.stack }))
      | b :: rest =>
        some (.ok (moved
          { s with input := rest, stack := (if b ≠ 0xff then (b : ℤ) else -1) :: s.stack }))
    else if cmd = 38 then
      match scanNext sf s.input with
      | none => none
      | some (.error k) => some (.err (.IoError k))
      | some (.ok (v, rem)) =>
        some (.ok (moved { s with input := rem, stack := v :: s.stack }))
    else if cmd = 95 then
      let p := popD s.stack
      let d : Direction := if p.1 = 0 then .Right else .Left
      let pc2 := { s.program_counter with direction := d }
      some (.ok (moved { s with stack := p.2, program_counter := pc2 }))
    else if cmd = 124 then
      let p := popD s.stack
      let d : Direction := if p.1 = 0 then .Down else .Up
      let pc2 := { s.program_counter with direction := d }
      some (.ok (moved { s with stack := p.2, program_counter := pc2 }))
    else if cmd = 103 then
      let py := popD s.stack
      let px := popD py.2
      let v : ℤ :=
        if ¬ (0 ≤ px.1 ∧ px.1 < (GRID_WIDTH : ℤ)) ∨ ¬ (0 ≤ py.1 ∧ py.1 < (GRID_HEIGHT : ℤ)) then 0
        else signedByte (((s.program_grid : List (List Nat)).getD (usizeOf py.1) []).getD (usizeOf px.1) 0)
      some (.ok (moved { s with stack := v :: px.2 }))
    else if cmd = 112 then
      let py := popD s.stack
      let px := popD py.2
      let pv := popD px.2
      let g2 :=
        if (0 ≤ px.1 ∧ px.1 < (GRID_WIDTH : ℤ)) ∧ (0 ≤ py.1 ∧ py.1 < (GRID_HEIGHT : ℤ)) then
          gridSet s.program_grid px.1 py.1 ((pv.1 % 256).toNat)
        else s.program_grid
      some (.ok (moved { s with stack := pv.2, program_grid := g2 }))
    else if cmd = 64 then
      some (.err .ProgramEnd)
    else
      some (.err (.IllegalCommand cmd))

/-- An all-space playfield: the parse of the empty program, and the
canonical ring of cells that emit no byte code. -/
def spacesGrid : Grid :=
  (List.replicate GRID_HEIGHT (List.replicate GRID_WIDTH 32) : List (List Nat))

/-- Compilation of the block at the given entry never finishes, with
any amount of fuel (the trace loop runs forever). -/
def neverCompiles (start : PC) (g : Grid) : Prop :=
  ∀ fuel, compileBasicBlockFrom fuel start g = none

/-- The one-line program "0099*p@": it executes a 'p' with y = 81 on
top of the stack, i.e. a store outside the playfield. -/
def c3Grid : Grid := padGrid [[48, 48, 57, 57, 42, 112, 64]]

/-- The plain interpreter about to execute the 'p' of "0099*p@": five
steps in, stack 81, 0, 0 from top. -/
def c3InterpMid : InterpState :=
  { program_grid := c3Grid
    stack := [81, 0, 0]
    string_mode := false
    program_counter := ⟨⟨5, 0⟩, .Right⟩
    input := []
    output := []
    steps := 5 }

/-- The three-line program "v", "1", "_": a conditional on the left
edge of the grid, reached going down. -/
def c4Grid : Grid := padGrid [[118], [49], [95]]

/-- The one-line program "100p:.@": the 'p' writes value 1 to cell
(0, 0), the entry cell of the running block, with two more ops and an
End terminator behind it. -/
def c5Grid : Grid := padGrid [[49, 48, 48, 112, 58, 46, 64]]

/-- Fresh JIT state for c5Grid with empty input. -/
def c5Start : JitState := initJitState c5Grid []

/-- JIT state after ensure_basic_block compiled and registered the
block of "100p:.@". -/
def c5Ensured : JitState :=
  match ensureBasicBlock 64 c5Start with
  | some (.ok (_, st)) => st
  | _ => c5Start

/-- The compiled block of "100p:.@". -/
def c5Block : BasicBlock :=
  match ensureBasicBlock 64 c5Start with
  | some (.ok (b, _)) => b
  | _ => ⟨default, [], .EndProgram⟩

/-- The PC after the 'p' of "100p:.@", as captured at compile time. -/
def c5PcAfter : PC := ⟨⟨4, 0⟩, .Right⟩

/-- State of the running block of "100p:.@" after its three pushes. -/
def c5Mid : JitState := { c5Ensured with stack := [0, 0, 1] }

/-- State after the self-invalidating SetValue of "100p:.@". -/
def c5End : JitState :=
  match execOp 0 c5Block.entry_point (Operation.SetValue c5PcAfter) c5Mid with
  | some (.ok (.earlyJump _ st)) => st
  | _ => c5Mid

/-- A playfield whose cell (1, 0) holds byte 0xFF (reachable at run
time through a 'p' store), scanned in string mode: the program is
'"', 0xFF, '"', '@'. -/
def c8Grid : Grid := padGrid [[34, 255, 34, 64]]

/-- The plain interpreter in string mode over a 0xFF cell. -/
def c8InterpState : InterpState :=
  { program_grid := padGrid [[255]]
    stack := []
    string_mode := true
    program_counter := default
    input := []
    output := []
    steps := 0 }

/-- A block consisting of one out-of-trace SetValue: it writes cell
(5, 5), which its own trace never visited. -/
def c10Block : BasicBlock :=
  ⟨⟨⟨0, 0⟩, .Right⟩, [Operation.SetValue ⟨⟨1, 1⟩, .Right⟩], .EndProgram⟩

/-- A second cached block whose entry shares position (0, 0) with
c10Block but goes Down, and whose trace visited cell (5, 5). -/
def c10OtherBlock : BasicBlock := ⟨⟨⟨0, 0⟩, .Down⟩, [], .EndProgram⟩

/-- JIT state in which c10Block is about to run: both blocks are
cached and cell (5, 5) of the reverse index lists only the Down
block. -/
def c10State : JitState :=
  { program_grid := spacesGrid
    grid_block_map := mapPush emptyBlockMap ⟨5, 5⟩ ⟨⟨0, 0⟩, .Down⟩
    basic_blocks := [(⟨⟨0, 0⟩, .Right⟩, c10Block), (⟨⟨0, 0⟩, .Down⟩, c10OtherBlock)]
    stack := [5, 5, 7]
    program_counter := ⟨⟨0, 0⟩, .Right⟩
    input := []
    output := []
    basic_block_compiles := 2 }

deriving instance DecidableEq for Except

/-- Indexing a replicated list inside its length. -/
theorem getReplicate {α : Type} (a : α) (n i : Nat) (h : i < n) :
    (List.replicate n a).get? i = some a := by
  induction n generalizing i with
  | zero => omega
  | succ n ih =>
    cases i with
    | zero => rfl
    | succ j => simpa [List.replicate] using ih j (by omega)

/-- The whitespace-skipping loop of scan_next never exits on an
exhausted input: end-of-stream sets the buffer to 0, which re-enters
the loop. -/
theorem scanSkipWs_nil (fuel : Nat) : scanSkipWs fuel [] = none := by
  induction fuel with
  | zero => rfl
  | succ n ih => simpa [scanSkipWs] using ih

/-- wrap64 is the identity on machine-word values. -/
theorem wrap64_eq_self {z : ℤ} (h1 : intMin ≤ z) (h2 : z ≤ intMax) : wrap64 z = z := by
  unfold wrap64 intMin intMax at *
  rw [Int.emod_eq_of_lt (by omega) (by omega)]
  omega

/-- Truncated remainder negates with its dividend. -/
theorem tmod_neg_left (a b : ℤ) : (-a).tmod b = -(a.tmod b) := by
  rw [Int.tmod_def, Int.tmod_def, Int.neg_tdiv]
  ring

/-- Truncated remainder by a positive divisor lies strictly between
-b and b. -/
theorem tmod_bounds (a : ℤ) {b : ℤ} (hb : 0 < b) : -b < a.tmod b ∧ a.tmod b < b := by
  rcases le_or_lt 0 a with ha | ha
  · exact ⟨by have := Int.tmod_nonneg b ha; omega, Int.tmod_lt_of_pos a hb⟩
  · have hx := tmod_neg_left (-a) b
    simp only [neg_neg] at hx
    have h2 := Int.tmod_nonneg (a := -a) b (by omega)
    have h3 := Int.tmod_lt_of_pos (-a) hb
    omega

/-- Truncated remainder stays in the machine word whenever the
divisor is a nonzero machine word. -/
theorem tmod_in_range (a : ℤ) {b : ℤ} (hb1 : intMin ≤ b) (hb2 : b ≤ intMax) (hb : b ≠ 0) :
    intMin ≤ a.tmod b ∧ a.tmod b ≤ intMax := by
  rcases lt_or_gt_of_ne hb with hneg | hpos
  · have hc := Int.tmod_neg a (-b)
    rw [neg_neg] at hc
    have hb0 : (0 : ℤ) < -b := by omega
    obtain ⟨l, r⟩ := tmod_bounds a hb0
    rw [hc]
    unfold intMin intMax at *
    omega
  · obtain ⟨l, r⟩ := tmod_bounds a hpos
    unfold intMin intMax at *
    omega

/-- Truncated division of machine words stays in the machine word
except for i64::MIN / -1. -/
theorem tdiv_in_range {a b : ℤ} (ha1 : intMin ≤ a) (ha2 : a ≤ intMax) (hb : b ≠ 0)
    (hnot : ¬(a = intMin ∧ b = -1)) : intMin ≤ a.tdiv b ∧ a.tdiv b ≤ intMax := by
  by_cases hb1 : b = 1
  · subst hb1
    rw [Int.tdiv_one]
    exact ⟨ha1, ha2⟩
  by_cases hbm : b = -1
  · subst hbm
    have hne : a ≠ intMin := fun h => hnot ⟨h, rfl⟩
    have hx : a.tdiv (-1) = -a := by
      have h1 := Int.tdiv_neg a 1
      rw [Int.tdiv_one] at h1
      exact h1
    rw [hx]
    unfold intMin intMax at *
    omega
  · have habs : (a.tdiv b).natAbs = a.natAbs / b.natAbs := Int.natAbs_tdiv a b
    have h2 : 2 ≤ b.natAbs := by omega
    have hA : a.natAbs ≤ 2 ^ 63 := by unfold intMin intMax at *; omega
    have hq : (a.tdiv b).natAbs ≤ 2 ^ 62 := by
      calc (a.tdiv b).natAbs = a.natAbs / b.natAbs := habs
        _ ≤ a.natAbs / 2 := Nat.div_le_div_left h2 (by norm_num)
        _ ≤ 2 ^ 63 / 2 := Nat.div_le_div_right hA
        _ = 2 ^ 62 := by norm_num
    unfold intMin intMax at *
    omega

/-- One axis of PC::constrain lands in [0, n) whenever the incoming
coordinate is at least -n. -/
theorem constrainCoord_range {z : ℤ} {n : Nat} (hn : 0 < (n : ℤ)) (hz : -(n : ℤ) ≤ z) :
    0 ≤ (if 0 ≤ z ∧ z < (n : ℤ) then z else (z + n).tmod n) ∧
      (if 0 ≤ z ∧ z < (n : ℤ) then z else (z + n).tmod n) < (n : ℤ) := by
  split_ifs with h
  · exact ⟨h.1, h.2⟩
  · rw [Int.tmod_eq_emod (by omega) (by omega)]
    exact ⟨Int.emod_nonneg _ (by omega), Int.emod_lt_of_pos _ hn⟩

/-- Stepping from an in-grid position and constraining lands in the
grid again, whatever the direction. -/
theorem stepConstrain_inGrid {pc : PC} (h : inGrid pc.position = true) :
    inGrid (stepConstrain pc).position = true := by
  unfold inGrid at h ⊢
  simp only [decide_eq_true_eq] at h ⊢
  obtain ⟨hx1, hx2, hy1, hy2⟩ := h
  unfold stepConstrain PC.step PC.constrain
  cases pc.direction <;>
    simp only [Position.addDir] <;>
    refine ⟨(constrainCoord_range (by norm_num [GRID_WIDTH]) (by push_cast [GRID_WIDTH] at *; omega)).1,
      (constrainCoord_range (by norm_num [GRID_WIDTH]) (by push_cast [GRID_WIDTH] at *; omega)).2,
      (constrainCoord_range (by norm_num [GRID_HEIGHT]) (by push_cast [GRID_HEIGHT] at *; omega)).1,
      (constrainCoord_range (by norm_num [GRID_HEIGHT]) (by push_cast [GRID_HEIGHT] at *; omega)).2⟩

/-- Every in-grid cell of the all-space playfield reads as 0x20. -/
theorem gridGet_spaces {p : Position} (h : inGrid p = true) : gridGet spacesGrid p = some 32 := by
  unfold inGrid at h
  simp only [decide_eq_true_eq] at h
  obtain ⟨hx1, hx2, hy1, hy2⟩ := h
  have hux : usizeOf p.x < GRID_WIDTH := by
    unfold usizeOf
    rw [if_pos hx1]
    unfold GRID_WIDTH at *
    omega
  have huy : usizeOf p.y < GRID_HEIGHT := by
    unfold usizeOf
    rw [if_pos hy1]
    unfold GRID_HEIGHT at *
    omega
  unfold gridGet spacesGrid
  rw [getReplicate _ _ _ huy]
  exact getReplicate _ _ _ hux

/-- On the all-space playfield the compiler's trace loop runs through
space cells forever: no op is ever emitted, so the size cap can never
fire, and no terminator is ever reached. -/
theorem spacesGridLoop (start : PC) (fuel : Nat) :
    ∀ (pc : PC) (pcs : List Position), inGrid pc.position = true →
      compileLoop spacesGrid start fuel pc false [] pcs = none := by
  induction fuel with
  | zero => intro pc pcs _; rfl
  | succ n ih =>
    intro pc pcs h
    rw [compileLoop]
    rw [gridGet_spaces h]
    norm_num [BASIC_BLOCK_SIZE_LIMIT]
    exact ih _ _ (stepConstrain_inGrid h)

/-- Executing a concatenation of op lists: if the prefix falls
through, execution continues on the suffix from the reached state. -/
theorem execOps_append (sf : Nat) (e : PC) (pre post : List Operation) (s s1 : JitState)
    (h : execOps sf e pre s = some (Res.ok (StepOut.fallthrough s1))) :
    execOps sf e (pre ++ post) s = execOps sf e post s1 := by
  induction pre generalizing s with
  | nil =>
    simp only [execOps, Option.some.injEq] at h
    obtain rfl : s = s1 := by
      cases h with
      | _ => rfl
    simp
  | cons op rest ih =>
    rw [List.cons_append]
    simp only [execOps] at h ⊢
    cases hop : execOp sf e op s with
    | none => rw [hop] at h; exact absurd h (by simp)
    | some r =>
      rw [hop] at h
      cases r with
      | ok so =>
        cases so with
        | fallthrough s2 => exact ih s2 h
        | earlyJump t s2 => exact absurd h (by simp)
      | err e2 => exact absurd h (by simp)
      | panicked => exact absurd h (by simp)

/-- Removing the blocks keyed by the invalidated entry PCs leaves the
cache entry of any other key untouched. -/
theorem assocLookup_filter (l : List (PC × BasicBlock)) (entries : List PC) (k : PC)
    (hk : k ∉ entries) :
    assocLookup (l.filter (fun e => decide (e.1 ∉ entries))) k = assocLookup l k := by
  induction l with
  | nil => rfl
  | cons e tl ih =>
    by_cases he : e.1 ∈ entries
    · have hne : ¬ e.1 = k := fun hh => hk (hh ▸ he)
      rw [List.filter_cons, if_neg (by simpa using he)]
      rw [ih]
      unfold assocLookup
      rw [List.find?_cons_of_neg _ (by simpa using hne)]
    · rw [List.filter_cons, if_pos (by simpa using he)]
      by_cases hek : e.1 = k
      · unfold assocLookup
        rw [List.find?_cons_of_pos _ (by simpa using hek),
          List.find?_cons_of_pos _ (by simpa using hek)]
      · unfold assocLookup at ih ⊢
        rw [List.find?_cons_of_neg _ (by simpa using hek),
          List.find?_cons_of_neg _ (by simpa using hek)]
        exact ih

/-- Claim C1, counterexample: Binary(Div) and Binary(Rem) with divisor
0 do not succeed with the wrapping primitive's result — the wrapping
primitives themselves panic on a zero divisor (modelled as `none`), so
at a = 1, b = 0 no value is pushed and the process aborts. -/
theorem c1_counterexample :
    BinaryOperation.call BinaryOperation.Divide 1 0 = none ∧
    BinaryOperation.call BinaryOperation.Remainder 1 0 = none := by
  decide

/-- Claim C1, amended: for machine-word operands, Binary(op) computes
the wrapping two's-complement result of the exact operation for Add,
Subtract and Multiply, the 1/0 comparison for Greater, and for Divide
and Remainder the wrapping result of truncated division whenever the
divisor is nonzero; with divisor 0 both Divide and Remainder panic
(no result) instead of producing a value. -/
theorem c1_wrapping_arithmetic (a b : ℤ)
    (ha1 : intMin ≤ a) (ha2 : a ≤ intMax) (hb1 : intMin ≤ b) (hb2 : b ≤ intMax) :
    BinaryOperation.call .Add a b = some (wrap64 (a + b)) ∧
    BinaryOperation.call .Subtract a b = some (wrap64 (a - b)) ∧
    BinaryOperation.call .Multiply a b = some (wrap64 (a * b)) ∧
    BinaryOperation.call .Greater a b = some (if a > b then 1 else 0) ∧
    (b ≠ 0 →
      BinaryOperation.call .Divide a b = some (wrap64 (a.tdiv b)) ∧
      BinaryOperation.call .Remainder a b = some (wrap64 (a.tmod b))) ∧
    (b = 0 →
      BinaryOperation.call .Divide a b = none ∧
      BinaryOperation.call .Remainder a b = none) := by
  refine ⟨rfl, rfl, rfl, rfl, ?_, ?_⟩
  · intro hb
    constructor
    · show wrappingDiv64 a b = _
      unfold wrappingDiv64
      rw [if_neg hb]
      by_cases hc : a = intMin ∧ b = -1
      · rw [if_pos hc]
        obtain ⟨h1, h2⟩ := hc
        subst h1
        subst h2
        decide
      · rw [if_neg hc]
        obtain ⟨l, r⟩ := tdiv_in_range ha1 ha2 hb hc
        rw [wrap64_eq_self l r]
    · show wrappingRem64 a b = _
      unfold wrappingRem64
      rw [if_neg hb]
      by_cases hc : a = intMin ∧ b = -1
      · rw [if_pos hc]
        obtain ⟨h1, h2⟩ := hc
        subst h1
        subst h2
        decide
      · rw [if_neg hc]
        obtain ⟨l, r⟩ := tmod_in_range a hb1 hb2 hb
        rw [wrap64_eq_self l r]
  · intro hb
    subst hb
    exact ⟨rfl, rfl⟩

/-- Claim C1, witness: at the overflow pair (i64::MIN, -1) both
Divide and Remainder produce the wrapping result. -/
theorem c1_witness :
    BinaryOperation.call BinaryOperation.Divide intMin (-1) = some (wrap64 (intMin.tdiv (-1))) ∧
    BinaryOperation.call BinaryOperation.Remainder intMin (-1) = some (wrap64 (intMin.tmod (-1))) :=
  (c1_wrapping_arithmetic intMin (-1) (by decide) (by decide) (by decide) (by decide)).2.2.2.2.1
    (by decide)

/-- Claim C2, counterexample: on the all-space playfield (a ring of
cells that emit no ops) compiling the block at the default start PC
never returns, with any amount of fuel — the emitted op count stays 0,
so the size cap never fires and no terminator is reached. -/
theorem c2_counterexample : neverCompiles default spacesGrid := fun fuel =>
  spacesGridLoop default fuel default [] (by decide)

/-- Claim C2, amended: the compiler terminates the block with
Jump(current_pc) as soon as the emitted op count exceeds 2048 at a
cell examined outside string mode; but on a trace through cells that
emit no ops the count never grows, and compilation does not terminate
(see the counterexample). -/
theorem c2_size_cap (grid : Grid) (start pc : PC) (fuel : Nat) (code : List Operation)
    (pcs : List Position) (cmd : Nat)
    (hcell : gridGet grid pc.position = some cmd)
    (hlen : code.length > BASIC_BLOCK_SIZE_LIMIT) :
    compileLoop grid start (fuel + 1) pc false code pcs =
      some (.ok (⟨start, code, .Jump pc⟩, pcs ++ [pc.position])) := by
  rw [compileLoop, hcell]
  simp only [Bool.false_eq_true, if_false, if_pos hlen]

/-- Claim C2, witness: a block that has already emitted 2049 ops is
terminated with Jump at the next examined cell. -/
theorem c2_witness :
    compileLoop spacesGrid default 1 default false
        (List.replicate 2049 Operation.Duplicate) [] =
      some (.ok (⟨default, List.replicate 2049 Operation.Duplicate, .Jump default⟩,
        [] ++ [(default : PC).position])) :=
  c2_size_cap spacesGrid default default 0 (List.replicate 2049 Operation.Duplicate) [] 32
    (by decide) (by rw [List.length_replicate]; norm_num [BASIC_BLOCK_SIZE_LIMIT])

set_option maxRecDepth 4000 in
/-- Claim C3: executing the 'p' of "0099*p@" with the out-of-grid
coordinate y = 81 pops its three operands and continues in the plain
interpreter (grid unchanged), but in the JIT engine the unconditional
invalidate_bytecode call indexes the reverse index at row 81 and
panics, so execution does not continue there. -/
theorem c3_divergence :
    runBlockOnce 64 0 (initJitState c3Grid []) = some Res.panicked ∧
    runStep 0 Direction.Right c3InterpMid =
      some (.ok { c3InterpMid with
        steps := 6, stack := [], program_counter := ⟨⟨6, 0⟩, .Right⟩ }) := by
  constructor
  · decide
  · decide

set_option maxRecDepth 4000 in
/-- Claim C4: the Branch terminator compiled for the '_' of the
program "v" / "1" / "_" stores the unconstrained position (-1, 2) as
its true target — no toroidal wrap is applied to branch targets — and
handing that stored PC back to the compiler (as the run loop does
after taking the branch) panics on the grid access. -/
theorem c4_unwrapped_branch_target :
    compileBasicBlockFrom 10 default c4Grid =
      some (.ok (⟨default, [.PushConstant 1],
        .Branch ⟨⟨-1, 2⟩, .Left⟩ ⟨⟨1, 2⟩, .Right⟩⟩, [⟨0, 0⟩, ⟨0, 1⟩, ⟨0, 2⟩])) ∧
    inGrid ⟨-1, 2⟩ = false ∧
    compileBasicBlockFrom 10 ⟨⟨-1, 2⟩, .Left⟩ c4Grid = some Res.panicked ∧
    (stepConstrain ⟨⟨0, 2⟩, .Left⟩).position = ⟨79, 2⟩ := by
  refine ⟨by decide, by decide, by decide, by decide⟩

/-- Claim C5: if the ops before a SetValue fall through to state s1
(their effects on stack and I/O are kept in s1), and the SetValue
itself self-invalidates — returning the early jump with the pc_after
captured at compile time — then the whole block stops right there:
its result is Jump(pc_after) in the state s2 left by the SetValue, the
ops after the SetValue are never executed, and the block's declared
terminator is discarded. -/
theorem c5_self_invalidation_stops_block (b : BasicBlock) (s s1 s2 : JitState)
    (pre rest : List Operation) (pc_after : PC) (sf : Nat)
    (hcode : b.bytecode = pre ++ Operation.SetValue pc_after :: rest)
    (hpre : execOps sf b.entry_point pre s = some (Res.ok (StepOut.fallthrough s1)))
    (hsv : execOp sf b.entry_point (Operation.SetValue pc_after) s1 =
      some (Res.ok (StepOut.earlyJump pc_after s2))) :
    BasicBlock.execute sf b s = some (Res.ok (ControlFlowDecision.Jump pc_after, s2)) := by
  unfold BasicBlock.execute
  rw [hcode, execOps_append sf b.entry_point pre (Operation.SetValue pc_after :: rest) s s1 hpre]
  simp only [execOps]
  rw [hsv]

set_option maxRecDepth 8000 in
/-- Claim C5, witness: in "100p:.@" the 'p' writes value 1 to its own
block's entry cell (0, 0); the block returns Jump to the captured
pc_after (4, 0) and the trailing Duplicate and Output ops never run. -/
theorem c5_witness :
    c5Block.bytecode =
      [Operation.PushConstant 1, Operation.PushConstant 0, Operation.PushConstant 0] ++
        Operation.SetValue c5PcAfter :: [Operation.Duplicate, Operation.Output IOMode.Decimal] ∧
    execOps 0 c5Block.entry_point
        [Operation.PushConstant 1, Operation.PushConstant 0, Operation.PushConstant 0] c5Ensured =
      some (Res.ok (StepOut.fallthrough c5Mid)) ∧
    execOp 0 c5Block.entry_point (Operation.SetValue c5PcAfter) c5Mid =
      some (Res.ok (StepOut.earlyJump c5PcAfter c5End)) ∧
    BasicBlock.execute 0 c5Block c5Ensured =
      some (Res.ok (ControlFlowDecision.Jump c5PcAfter, c5End)) :=
  ⟨by decide, by decide, by decide,
    c5_self_invalidation_stops_block c5Block c5Ensured c5Mid c5End
      [Operation.PushConstant 1, Operation.PushConstant 0, Operation.PushConstant 0]
      [Operation.Duplicate, Operation.Output IOMode.Decimal] c5PcAfter 0
      (by decide) (by decide) (by decide)⟩

set_option maxRecDepth 4000 in
/-- Claim C6: a source whose second line is 81 characters long parses
successfully — the width check only looks at the first line — and the
long line is silently truncated to 80 columns; only an over-long
first line (or more than 25 lines) raises InvalidGridSize. -/
theorem c6_truncation :
    parseGrid [[97], List.replicate 81 49] =
      Except.ok ((97 :: List.replicate 79 32) :: List.replicate 80 49 ::
        List.replicate 23 (List.replicate 80 32) : List (List Nat)) ∧
    (List.replicate 81 49).length > GRID_WIDTH ∧
    parseGrid [List.replicate 81 49] = Except.error (Error.InvalidGridSize 81 1) := by
  refine ⟨by decide, by decide, by decide⟩

/-- Claim C7: scan_next invoked at end-of-stream never terminates
(the whitespace-skipping loop sets its buffer to 0 at EOF and loops),
so the Input(Decimal) op on an exhausted stream never completes and in
particular never returns Io(InvalidData); end-of-stream reached after
at least one token byte merely terminates the token, which parses
normally ("12" then EOF yields 12). -/
theorem c7_scan_divergence :
    (∀ fuel, scanNext fuel [] = none) ∧
    (∀ sf entry, execOp sf entry (Operation.Input IOMode.Decimal) (initJitState spacesGrid []) =
      none) ∧
    scanNext 10 [49, 50] = some (Except.ok (12, [])) := by
  refine ⟨?_, ?_, by decide⟩
  · intro fuel
    unfold scanNext
    rw [scanSkipWs_nil]
  · intro sf entry
    have hs : scanNext sf ([] : List Nat) = none := by
      unfold scanNext
      rw [scanSkipWs_nil]
    unfold execOp initJitState
    rw [hs]

set_option maxRecDepth 4000 in
/-- Claim C8, counterexample: compiling the program '"', 0xFF, '"',
'@' emits PushConstant 255 for the 0xFF cell visited in string mode —
the byte is zero-extended, not reinterpreted as the signed value -1
that the GetValue sign-extension (signedByte) would produce. -/
theorem c8_counterexample :
    compileBasicBlockFrom 10 default c8Grid =
      some (.ok (⟨default, [Operation.PushConstant 255], .EndProgram⟩,
        [⟨0, 0⟩, ⟨1, 0⟩, ⟨2, 0⟩, ⟨3, 0⟩])) ∧
    Operation.PushConstant 255 ≠ Operation.PushConstant (signedByte 255) := by
  refine ⟨by decide, by decide⟩

/-- Claim C8, amended: during string mode every visited cell whose
byte b is not '"' pushes b zero-extended (the unsigned value 0..=255,
so 0xFF pushes 255, not -1), and '"' exits string mode without
pushing; this holds in the block compiler (which emits the
PushConstant) and in the plain interpreter alike. -/
theorem c8_string_mode_unsigned (grid : Grid) (start pc : PC) (fuel : Nat)
    (code : List Operation) (pcs : List Position) (b : Nat) (si : InterpState)
    (sf : Nat) (d : Direction)
    (hcell : gridGet grid pc.position = some b)
    (hicell : gridGet si.program_grid si.program_counter.position = some b)
    (hsm : si.string_mode = true) :
    (b ≠ 34 → compileLoop grid start (fuel + 1) pc true code pcs =
      compileLoop grid start fuel (stepConstrain pc) true
        (code ++ [Operation.PushConstant (b : ℤ)]) (pcs ++ [pc.position])) ∧
    (b = 34 → compileLoop grid start (fuel + 1) pc true code pcs =
      compileLoop grid start fuel (stepConstrain pc) false code (pcs ++ [pc.position])) ∧
    (b ≠ 34 → runStep sf d si = some (.ok { si with
      steps := si.steps + 1,
      stack := (b : ℤ) :: si.stack,
      program_counter := stepConstrain si.program_counter })) ∧
    (b = 34 → runStep sf d si = some (.ok { si with
      steps := si.steps + 1,
      string_mode := false,
      program_counter := stepConstrain si.program_counter })) := by
  refine ⟨?_, ?_, ?_, ?_⟩
  · intro hb
    rw [compileLoop, hcell]
    simp [hb]
  · intro hb
    subst hb
    rw [compileLoop, hcell]
    simp
  · intro hb
    unfold runStep
    simp only []
    rw [show gridGet si.program_grid si.program_counter.position = some b from hicell, hsm]
    simp [hb]
  · intro hb
    subst hb
    unfold runStep
    simp only []
    rw [show gridGet si.program_grid si.program_counter.position = some 34 from hicell, hsm]
    simp

set_option maxRecDepth 4000 in
/-- Claim C8, witness: at the 0xFF cell of c8Grid the compiler emits
PushConstant 255 and the interpreter pushes 255; at the '"' cell
string mode is exited without emitting. -/
theorem c8_witness :
    (compileLoop c8Grid default 6 ⟨⟨1, 0⟩, .Right⟩ true [] [⟨0, 0⟩] =
      compileLoop c8Grid default 5 (stepConstrain ⟨⟨1, 0⟩, .Right⟩) true
        [Operation.PushConstant 255] [⟨0, 0⟩, ⟨1, 0⟩]) ∧
    (runStep 0 Direction.Right c8InterpState = some (.ok { c8InterpState with
      steps := 1,
      stack := [(255 : ℤ)],
      program_counter := stepConstrain c8InterpState.program_counter })) ∧
    (compileLoop c8Grid default 5 ⟨⟨2, 0⟩, .Right⟩ true [Operation.PushConstant 255]
        [⟨0, 0⟩, ⟨1, 0⟩] =
      compileLoop c8Grid default 4 (stepConstrain ⟨⟨2, 0⟩, .Right⟩) false
        [Operation.PushConstant 255] [⟨0, 0⟩, ⟨1, 0⟩, ⟨2, 0⟩]) := by
  refine ⟨?_, ?_, ?_⟩
  · exact (c8_string_mode_unsigned c8Grid default ⟨⟨1, 0⟩, .Right⟩ 5 [] [⟨0, 0⟩] 255
      c8InterpState 0 Direction.Right (by decide) (by decide) (by decide)).1 (by decide)
  · exact (c8_string_mode_unsigned c8Grid default ⟨⟨1, 0⟩, .Right⟩ 5 [] [⟨0, 0⟩] 255
      c8InterpState 0 Direction.Right (by decide) (by decide) (by decide)).2.2.1 (by decide)
  · exact (c8_string_mode_unsigned c8Grid default ⟨⟨2, 0⟩, .Right⟩ 4 [Operation.PushConstant 255]
      [⟨0, 0⟩, ⟨1, 0⟩] 34 { c8InterpState with program_grid := padGrid [[34]] } 0 Direction.Right
      (by decide) (by decide) (by decide)).2.1 (by decide)

set_option maxRecDepth 4000 in
/-- Claim C9, counterexample: with the input stream holding the single
byte 0xFF (not at end-of-stream), Input(Ascii) pushes -1, not 255: the
0xFF sentinel makes a successfully read 0xFF byte indistinguishable
from EOF, so "-1 is pushed iff at end-of-stream" fails in both
directions at this input. -/
theorem c9_counterexample :
    execOp 0 default (Operation.Input IOMode.Ascii) (initJitState spacesGrid [255]) =
      some (.ok (.fallthrough
        { initJitState spacesGrid [255] with input := [], stack := [(-1 : ℤ)] })) ∧
    (-1 : ℤ) ≠ 255 := by
  refine ⟨by decide, by decide⟩

/-- Claim C9, amended: Input(Ascii) pushes the read byte b for every
b other than 0xFF; it pushes -1 both at end-of-stream and when the
read byte is 0xFF (the sentinel conflates the two).  The same holds
for the interpreter's '~' command.  (Other I/O errors cannot arise
from a byte-list stream in this model.) -/
theorem c9_input_ascii (s : JitState) (si : InterpState) (entry : PC) (sf isf : Nat)
    (d : Direction) (b : Nat) (rest irest : List Nat)
    (hicell : gridGet si.program_grid si.program_counter.position = some 126)
    (hism : si.string_mode = false) :
    (s.input = [] → execOp sf entry (Operation.Input IOMode.Ascii) s =
      some (.ok (.fallthrough { s with stack := (-1 : ℤ) :: s.stack }))) ∧
    (s.input = b :: rest → execOp sf entry (Operation.Input IOMode.Ascii) s =
      some (.ok (.fallthrough { s with
        input := rest,
        stack := (if b ≠ 0xff then (b : ℤ) else -1) :: s.stack }))) ∧
    (si.input = [] → runStep isf d si = some (.ok { si with
      steps := si.steps + 1,
      stack := (-1 : ℤ) :: si.stack,
      program_counter := stepConstrain si.program_counter })) ∧
    (si.input = b :: irest → runStep isf d si = some (.ok { si with
      steps := si.steps + 1,
      input := irest,
      stack := (if b ≠ 0xff then (b : ℤ) else -1) :: si.stack,
      program_counter := stepConstrain si.program_counter })) := by
  refine ⟨?_, ?_, ?_, ?_⟩
  · intro h
    unfold execOp
    rw [h]
  · intro h
    unfold execOp
    rw [h]
  · intro h
    unfold runStep
    simp only []
    rw [show gridGet si.program_grid si.program_counter.position = some 126 from hicell, hism, h]
    simp
  · intro h
    unfold runStep
    simp only []
    rw [show gridGet si.program_grid si.program_counter.position = some 126 from hicell, hism, h]
    simp

set_option maxRecDepth 4000 in
/-- Claim C9, witness: reading byte 65 pushes 65; an empty stream
pushes -1; reading byte 255 pushes -1, in both engines. -/
theorem c9_witness :
    (execOp 0 default (Operation.Input IOMode.Ascii) (initJitState spacesGrid [65]) =
      some (.ok (.fallthrough { initJitState spacesGrid [65] with
        input := [],
        stack := (if (65 : Nat) ≠ 0xff then ((65 : Nat) : ℤ) else -1) ::
          (initJitState spacesGrid [65]).stack }))) ∧
    (execOp 0 default (Operation.Input IOMode.Ascii) (initJitState spacesGrid []) =
      some (.ok (.fallthrough { initJitState spacesGrid [] with
        stack := (-1 : ℤ) :: (initJitState spacesGrid []).stack }))) ∧
    (execOp 0 default (Operation.Input IOMode.Ascii) (initJitState spacesGrid [255]) =
      some (.ok (.fallthrough { initJitState spacesGrid [255] with
        input := [],
        stack := (if (255 : Nat) ≠ 0xff then ((255 : Nat) : ℤ) else -1) ::
          (initJitState spacesGrid [255]).stack }))) := by
  refine ⟨?_, ?_, ?_⟩
  · exact (c9_input_ascii (initJitState spacesGrid [65]) { c8InterpState with program_grid := padGrid [[126]], string_mode := false }
      default 0 0 Direction.Right 65 [] [] (by decide) (by decide)).2.1 (by decide)
  · exact (c9_input_ascii (initJitState spacesGrid []) { c8InterpState with program_grid := padGrid [[126]], string_mode := false }
      default 0 0 Direction.Right 65 [] [] (by decide) (by decide)).1 (by decide)
  · exact (c9_input_ascii (initJitState spacesGrid [255]) { c8InterpState with program_grid := padGrid [[126]], string_mode := false }
      default 0 0 Direction.Right 255 [] [] (by decide) (by decide)).2.1 (by decide)

/-- Claim C10: the self-invalidation test compares entry positions
only.  If the reverse-index list of the written cell does not contain
the running block's entry PC (its own trace never touched the cell)
but does contain some PC with the same position (a different-direction
block), the running block still aborts with the synthetic
Jump(pc_after) — and, not having been listed, it stays in the block
cache. -/
theorem c10_position_only_invalidation (b : BasicBlock) (s : JitState) (sf : Nat)
    (pc_after : PC) (rest : List Operation) (y x v : ℤ) (st : List ℤ)
    (row : List (List PC)) (entries : List PC)
    (hcode : b.bytecode = Operation.SetValue pc_after :: rest)
    (hstack : s.stack = y :: x :: v :: st)
    (hrow : (s.grid_block_map : List (List (List PC))).get? (usizeOf y) = some row)
    (hcell : row.get? (usizeOf x) = some entries)
    (hnotin : b.entry_point ∉ entries)
    (hpos : b.entry_point.position ∈ entries.map PC.position) :
    ∃ s2, BasicBlock.execute sf b s = some (Res.ok (ControlFlowDecision.Jump pc_after, s2)) ∧
      assocLookup s2.basic_blocks b.entry_point = assocLookup s.basic_blocks b.entry_point := by
  unfold BasicBlock.execute
  rw [hcode]
  simp only [execOps]
  unfold execOp
  rw [hstack]
  simp only [popD]
  unfold invalidateBytecode
  simp only []
  rw [hrow]
  simp only []
  rw [hcell]
  simp only [if_pos hpos]
  refine ⟨_, rfl, ?_⟩
  exact assocLookup_filter s.basic_blocks entries b.entry_point hnotin

set_option maxRecDepth 4000 in
/-- Claim C10, witness: c10Block (entry (0,0) going Right) writes cell
(5, 5), which only the Down-entry block's trace visited; the running
block still returns the synthetic Jump and stays cached. -/
theorem c10_witness :
    c10Block.bytecode = Operation.SetValue ⟨⟨1, 1⟩, .Right⟩ :: [] ∧
    c10State.stack = (5 : ℤ) :: (5 : ℤ) :: (7 : ℤ) :: [] ∧
    (c10State.grid_block_map : List (List (List PC))).get? (usizeOf 5) =
      some ((List.replicate GRID_WIDTH ([] : List PC)).set 5 [⟨⟨0, 0⟩, .Down⟩]) ∧
    ((List.replicate GRID_WIDTH ([] : List PC)).set 5 [⟨⟨0, 0⟩, .Down⟩]).get? (usizeOf 5) =
      some [⟨⟨0, 0⟩, .Down⟩] ∧
    c10Block.entry_point ∉ ([⟨⟨0, 0⟩, .Down⟩] : List PC) ∧
    c10Block.entry_point.position ∈ ([⟨⟨0, 0⟩, .Down⟩] : List PC).map PC.position ∧
    (∃ s2, BasicBlock.execute 0 c10Block c10State =
        some (Res.ok (ControlFlowDecision.Jump ⟨⟨1, 1⟩, .Right⟩, s2)) ∧
      assocLookup s2.basic_blocks c10Block.entry_point =
        assocLookup c10State.basic_blocks c10Block.entry_point) :=
  ⟨by decide, by decide, by decide, by decide, by decide, by decide,
    c10_position_only_invalidation c10Block c10State 0 ⟨⟨1, 1⟩, .Right⟩ [] 5 5 7 []
      ((List.replicate GRID_WIDTH ([] : List PC)).set 5 [⟨⟨0, 0⟩, .Down⟩]) [⟨⟨0, 0⟩, .Down⟩]
      (by decide) (by decide) (by decide) (by decide) (by decide) (by decide)⟩
